import Mathlib

/-! Verification of the per-call playback core of a voice-channel media
queue bot.  The definitions below are a shallow embedding of the Python
sources `utils/voice_state.py`, `utils/yt_source.py` and
`cogs/music.py`: pure functions become Lean functions, stateful methods
become explicit state-passing functions on a `VoiceState` record,
fallible operations return `Option`/`Except`, and the behaviour of
external collaborators (the audio sink, the media extractor, the task
scheduler) enters the operations as explicit parameters. -/

namespace Orca

/-- Elements of the Python slice `q[start:stop]` used by the queue view
(`SongQueue.__getitem__`, `utils/voice_state.py` lines 19-22:
`itertools.islice(self._queue, item.start, item.stop)`). -/
def SongQueue.slice {α : Type} (q : List α) (start stop : Nat) : List α :=
  (q.drop start).take (stop - start)

/-- The deletion `del self._queue[index]` with Python index semantics
(`SongQueue.remove`, `utils/voice_state.py` lines 36-37): a negative
index counts from the back; an index outside `[-n, n-1]` raises
`IndexError`, modelled as `none`. -/
def SongQueue.remove {α : Type} (q : List α) (index : Int) : Option (List α) :=
  let n : Int := q.length
  let i : Int := if index < 0 then index + n else index
  if 0 ≤ i ∧ i < n then some (q.take i.toNat ++ q.drop (i.toNat + 1)) else none

/-- The user-facing `remove` command (`Music._remove`, `cogs/music.py`
lines 268-278): it replies "Empty queue." and touches nothing when the
queue is empty, otherwise forwards `index - 1` to `SongQueue.remove`;
an `IndexError` escaping from there reaches the cog error handler and
is modelled as `none`. -/
def Music.removeCommand {α : Type} (q : List α) (index : Int) : Option (List α) :=
  if q.length = 0 then some q
  else SongQueue.remove q (index - 1)

/-- Queue-view page size (`items_per_page = 10`, `utils/voice_state.py`
line 191 and `cogs/music.py` line 220). -/
def items_per_page : Nat := 10

/-- Number of pages of the queue view:
`max(1, math.ceil(len(songs) / items_per_page))`
(`utils/voice_state.py` line 192 and `cogs/music.py` line 221). -/
def numPages (n : Nat) : Nat :=
  max 1 ⌈(n : ℚ) / (items_per_page : ℚ)⌉₊

/-- Page `page` (0-based) of the queue view: the slice
`songs[page * items_per_page : (page + 1) * items_per_page]`
(`utils/voice_state.py` lines 198-204 and `cogs/music.py`
lines 226-232). -/
def pageItems {α : Type} (songs : List α) (page : Nat) : List α :=
  SongQueue.slice songs (page * items_per_page) ((page + 1) * items_per_page)

/-- The audio sink handle (`discord.VoiceClient`) as the session
observes it: `is_connected()` and `is_playing()`. -/
structure Sink where
  connected : Bool
  playing : Bool
deriving DecidableEq

/-- Shallow embedding of `YTDLSource` (`utils/yt_source.py`
lines 114-141), keeping the fields the session and the refresh path
read or write: `url` is the stable `webpage_url` kept for
re-gathering, `stream_url` the expiring direct stream locator,
`volume` the per-track volume of the `PCMVolumeTransformer`. -/
structure YTDLSource where
  requester : Nat
  title : Option String
  uploader : Option String
  url : Option String
  stream_url : Option String
  http_headers : List (String × String)
  volume : ℚ
deriving DecidableEq

/-- A queued `Song` (`utils/yt_source.py` lines 258-263): the source
plus the requester captured at construction time. -/
structure Song where
  source : YTDLSource
  requester : Nat
deriving DecidableEq

/-- The `Song.__init__` constructor: `self.requester = source.requester`. -/
def Song.ofSource (source : YTDLSource) : Song :=
  { source := source, requester := source.requester }

/-- Shallow embedding of the mutable `VoiceState` fields
(`utils/voice_state.py` lines 40-68) that the verified operations
touch.  `exists_` stands for the Python attribute `exists` (a reserved
word in Lean), `loop_flag` for `_loop` and `volume` for `_volume`.
The background tasks, the `next` event and the bot/context handles are
external: their behaviour enters the operations below as parameters. -/
structure VoiceState where
  exists_ : Bool
  current : Option Song
  voice : Option Sink
  songs : List Song
  loop_flag : Bool
  volume : ℚ
  skip_votes : List Nat
  queue_message : Option Nat
  first_song_played : Bool
  action_message : String
deriving DecidableEq

/-- The `VoiceState.__init__` field values (`utils/voice_state.py`
lines 47-63): fresh session, default volume 0.3 (30%). -/
def VoiceState.init : VoiceState :=
  { exists_ := true, current := none, voice := none, songs := [],
    loop_flag := false, volume := 3 / 10, skip_votes := [],
    queue_message := none, first_song_played := false, action_message := "" }

/-- The `is_playing` property (`utils/voice_state.py` lines 101-103):
`self.voice and self.current and self.voice.is_playing()`. -/
def VoiceState.is_playing (s : VoiceState) : Bool :=
  match s.voice, s.current with
  | some v, some _ => v.playing
  | _, _ => false

/-- The `change_volume` method (`utils/voice_state.py` lines 105-112):
clamps `self._volume + delta / 100` into `[0, 1]`, propagates the new
volume to the live track if present, and stages the one-shot action
annotation (`int(...)` truncates, which on `[0, 1]` is the floor).
The trailing now-playing refresh is a UI side effect outside the
state model. -/
def VoiceState.change_volume (s : VoiceState) (delta : Int) (user : String) : VoiceState :=
  let new_volume : ℚ := s.volume + (delta : ℚ) / 100
  let v : ℚ := max 0 (min 1 new_volume)
  { s with
    volume := v,
    current := s.current.map (fun cur => { cur with source := { cur.source with volume := v } }),
    action_message :=
      "**" ++ user ++ " changed the volume to " ++ toString ⌊v * 100⌋ ++ "%**" }

/-- The `stop` method (`utils/voice_state.py` lines 164-184): clear the
queue; if a sink is attached, disconnect it — the exception of a failing
disconnect is caught and discarded — and null the handle; flip the
existence flag; finally edit the queue message, again discarding any
exception.  The two flags say whether those external calls raise; the
function is total — no exception propagates — whichever they do. -/
def VoiceState.stop (s : VoiceState) (disconnect_raises edit_raises : Bool) : VoiceState :=
  let s1 := { s with songs := [] }
  let s2 :=
    match s1.voice with
    | some _ => { s1 with voice := none }
    | none => s1
  { s2 with exists_ := false }

/-- The `skip` method (`utils/voice_state.py` lines 158-162): clears
the skip votes, then calls `voice.stop()` only if something is actively
playing.  The returned flag records whether that sink call was made. -/
def VoiceState.skip (s : VoiceState) : VoiceState × Bool :=
  let s1 := { s with skip_votes := [] }
  if s1.is_playing then (s1, true) else (s1, false)

/-- Outcome of one pass of the playback loop body: the loop returned
(session terminated), slept and retried because no sink is connected,
or handed a track to the sink and came back for the next iteration. -/
inductive LoopStep where
  | terminated
  | waitRetry
  | played (song : Song)
deriving DecidableEq

/-- The tail of one `audio_player_task` iteration once a current track
is in hand (`utils/voice_state.py` lines 128-150): sleep and retry when
the sink is absent or disconnected; otherwise try `regather_stream` —
`refresh` returns `none` when it raises, in which case the failure is
logged and the stale source kept — apply the session volume to the
source, hand it to the sink, wait for the completion signal, and clear
`current` unless looping. -/
def VoiceState.play_phase (s : VoiceState) (song : Song)
    (refresh : YTDLSource → Option YTDLSource) : VoiceState × LoopStep :=
  match s.voice with
  | none => (s, .waitRetry)
  | some v =>
    if v.connected = false then (s, .waitRetry)
    else
      let src :=
        match refresh song.source with
        | some ns => ns
        | none => song.source
      let src1 := { src with volume := s.volume }
      let played : Song := { song with source := src1 }
      let s1 := { s with current := some played, first_song_played := true }
      let s2 := if s1.loop_flag then s1 else { s1 with current := none }
      (s2, .played played)

/-- One pass of the `while True` body of `audio_player_task`
(`utils/voice_state.py` lines 114-150).  When not looping or with no
current track, the loop waits on the queue under `timeout(1800)`:
a nonempty queue yields its head at once; on an empty queue `arrival`
is the song a producer puts within the bound, or `none` when the wait
times out, in which case `TimeoutError` is caught, `stop()` runs and
the loop returns. -/
def VoiceState.audio_player_iter (s : VoiceState) (arrival : Option Song)
    (refresh : YTDLSource → Option YTDLSource) : VoiceState × LoopStep :=
  match (if s.loop_flag then s.current else none) with
  | some song => VoiceState.play_phase s song refresh
  | none =>
    match s.songs, arrival with
    | song :: rest, _ =>
      VoiceState.play_phase { s with current := some song, songs := rest } song refresh
    | [], some song =>
      VoiceState.play_phase { s with current := some song } song refresh
    | [], none => (s.stop false false, .terminated)

/-- Metadata dictionary returned by `ytdl.extract_info` for a single
video: the keys `regather_stream` and `YTDLSource.__init__` read.
`url` is the fresh direct stream locator, `webpage_url` the stable
page locator. -/
structure ExtractData where
  url : String
  webpage_url : Option String
  title : Option String
  uploader : Option String
  http_headers : List (String × String)
deriving DecidableEq

/-- Top-level extractor result, which may carry an `entries` list
(playlist-shaped results); an individual entry may be null. -/
structure ExtractInfo extends ExtractData where
  entries : List (Option ExtractData)
deriving DecidableEq

/-- Construction of a `YTDLSource` from extractor data
(`YTDLSource.__init__`, `utils/yt_source.py` lines 114-141):
`self.url = data.get("webpage_url")`, `self.stream_url =
data.get("url")`, `self.http_headers = dict(data.get("http_headers"))`,
volume handed to the `PCMVolumeTransformer`. -/
def YTDLSource.ofData (requester : Nat) (data : ExtractData) (volume : ℚ) : YTDLSource :=
  { requester := requester
    title := data.title
    uploader := data.uploader
    url := data.webpage_url
    stream_url := some data.url
    http_headers := data.http_headers
    volume := volume }

/-- The `regather_stream` classmethod (`utils/yt_source.py`
lines 206-238): a source with no stable page URL is returned unchanged;
otherwise the stable URL is re-extracted (`extract` models
`ytdl.extract_info`, returning `none` on failure, which the method
turns into a `YTDLError`); a result with a nonempty `entries` list is
replaced by its first non-null entry, falling back to the result
itself; the refreshed source is rebuilt from the new data with
`volume=source.volume`. -/
def YTDLSource.regather_stream (extract : String → Option ExtractInfo)
    (requester : Nat) (source : YTDLSource) : Except String YTDLSource :=
  match source.url with
  | none => .ok source
  | some u =>
    match extract u with
    | none => .error ("Could not regather " ++ u)
    | some info =>
      let data : ExtractData :=
        if info.entries.isEmpty then info.toExtractData
        else
          match info.entries.filterMap id with
          | e :: _ => e
          | [] => info.toExtractData
      .ok (YTDLSource.ofData requester data source.volume)

/-- The playlist importer's batch width (`batch_size = 10`,
`cogs/music.py` line 406). -/
def batch_size : Nat := 10

/-- The enqueue phase for one resolved batch (`cogs/music.py`
lines 431-443): walk the results in list order, skip failed (`err`) or
empty resolutions, and append every source of the remaining entries to
the queue. -/
def enqueueResults {σ : Type} (q : List σ) (results : List (Nat × Option (List σ))) :
    List σ :=
  results.foldl
    (fun acc r =>
      match r.2 with
      | none => acc
      | some srcs => acc ++ srcs) q

/-- The `results.sort(key=lambda x: x[0])` step (`cogs/music.py`
line 429): stable sort of a batch's gathered results by original
playlist index. -/
def sortResults {σ : Type} (results : List (Nat × Option (List σ))) :
    List (Nat × Option (List σ)) :=
  results.mergeSort (fun a b => decide (a.1 ≤ b.1))

/-- The batch loop `for start in range(0, total, batch_size)` of
`play_spotify_playlist` (`cogs/music.py` lines 410-443): before each
batch the sink connection is re-checked and the rest of the run is
abandoned if it is gone; otherwise the batch's gathered results
are sorted by original index and enqueued under the session lock. -/
def runImport {σ : Type} (connected : Nat → Bool)
    (batchResults : Nat → List (Nat × Option (List σ))) :
    List σ → List Nat → List σ
  | q, [] => q
  | q, start :: rest =>
    if connected start then
      runImport connected batchResults
        (enqueueResults q (sortResults (batchResults start))) rest
    else q

/-- `play_spotify_playlist` (`cogs/music.py` lines 360-484) as a
function of its environment: `q` the session's song list at the start
of the run, `total` the number of playlist tracks, `connected start`
whether the sink is still connected when the batch at `start` begins,
and `batchResults start` the `(original index, resolved sources or
error)` pairs `asyncio.gather` delivers for that batch — in whatever
completion order. -/
def play_spotify_playlist {σ : Type} (q : List σ) (total : Nat)
    (connected : Nat → Bool)
    (batchResults : Nat → List (Nat × Option (List σ))) : List σ :=
  runImport connected batchResults q
    (List.range' 0 ((total + batch_size - 1) / batch_size) batch_size)

/-- The canonical, completion-order-free contents of the batch starting
at `start` for a playlist of `total` tracks resolved by `res`:
`(index, outcome)` pairs in original index order.  A `batchResults`
function is faithful to the code when each batch is a permutation of
this list, since `asyncio.gather` runs exactly one `resolve_one(idx,
...)` per batch member. -/
def canonicalBatch {σ : Type} (res : Nat → Option (List σ)) (total start : Nat) :
    List (Nat × Option (List σ)) :=
  (List.range' start (min batch_size (total - start))).map (fun i => (i, res i))

/-- Helper: `stop` always produces the same torn-down state — queue
cleared, sink handle nulled, existence flag false, everything else
untouched — whatever the external disconnect and message-edit calls do. -/
theorem VoiceState.stop_spec (s : VoiceState) (d e : Bool) :
    s.stop d e = { s with songs := [], voice := none, exists_ := false } := by
  obtain ⟨ex, cur, vo, songs, lf, vol, sv, qm, fsp, am⟩ := s
  cases vo <;> rfl

/-- Helper: `play_phase` never touches the session volume. -/
theorem VoiceState.play_phase_volume (s : VoiceState) (song : Song)
    (refresh : YTDLSource → Option YTDLSource) :
    (s.play_phase song refresh).1.volume = s.volume := by
  unfold VoiceState.play_phase
  cases hv : s.voice with
  | none => rfl
  | some v =>
    cases hvc : v.connected <;> cases hlf : s.loop_flag <;> simp [hvc, hlf]

/-- Helper: one playback-loop pass never touches the session volume. -/
theorem VoiceState.audio_player_iter_volume (s : VoiceState) (arrival : Option Song)
    (refresh : YTDLSource → Option YTDLSource) :
    (s.audio_player_iter arrival refresh).1.volume = s.volume := by
  unfold VoiceState.audio_player_iter
  split
  · exact s.play_phase_volume _ _
  · split
    · exact VoiceState.play_phase_volume _ _ _
    · exact VoiceState.play_phase_volume _ _ _
    · rw [VoiceState.stop_spec]

/-- C2: the session volume stays in `[0,1]`: from any volume in `[0,1]`
and any integer `delta`, `change_volume` sets it to
`max(0, min(1, v + delta/100))` — clamped into `[0,1]`, never an error
(the function is total) — and the other session operations
(`stop`, `skip`, the playback loop) never move the volume, which starts
at the in-range default 0.3. -/
theorem change_volume_clamps (s : VoiceState) (delta : Int) (user : String)
    (d e : Bool) (arrival : Option Song) (refresh : YTDLSource → Option YTDLSource)
    (h0 : 0 ≤ s.volume) (h1 : s.volume ≤ 1) :
    (s.change_volume delta user).volume = max 0 (min 1 (s.volume + (delta : ℚ) / 100)) ∧
    0 ≤ (s.change_volume delta user).volume ∧
    (s.change_volume delta user).volume ≤ 1 ∧
    (s.stop d e).volume = s.volume ∧
    s.skip.1.volume = s.volume ∧
    (s.audio_player_iter arrival refresh).1.volume = s.volume ∧
    0 ≤ VoiceState.init.volume ∧ VoiceState.init.volume ≤ 1 := by
  refine ⟨rfl, ?_, ?_, ?_, ?_, s.audio_player_iter_volume arrival refresh, ?_, ?_⟩
  · exact le_max_left 0 _
  · exact max_le (by norm_num) (min_le_left 1 _)
  · rw [VoiceState.stop_spec]
  · unfold VoiceState.skip
    dsimp only
    split <;> rfl
  · norm_num [VoiceState.init]
  · norm_num [VoiceState.init]

/-- Witness for C2 at a concrete state: volume 0.3, delta +90 clamps
to exactly 1. -/
theorem change_volume_clamps_witness :
    (0 ≤ VoiceState.init.volume ∧ VoiceState.init.volume ≤ 1) ∧
    (VoiceState.init.change_volume 90 "user").volume =
      max 0 (min 1 (VoiceState.init.volume + (90 : ℚ) / 100)) ∧
    0 ≤ (VoiceState.init.change_volume 90 "user").volume ∧
    (VoiceState.init.change_volume 90 "user").volume ≤ 1 := by
  have h := change_volume_clamps VoiceState.init 90 "user" false false none
    (fun _ => none) (by norm_num [VoiceState.init]) (by norm_num [VoiceState.init])
  exact ⟨⟨by norm_num [VoiceState.init], by norm_num [VoiceState.init]⟩,
    h.1, h.2.1, h.2.2.1⟩

/-- C5: `stop` is idempotent: a second call in succession raises no
exception (the function is total for every combination of external-call
failures), returns the very same state, and after it the existence flag
is false, the queue is empty and the sink handle is nil. -/
theorem stop_idempotent (s : VoiceState) (d1 e1 d2 e2 : Bool) :
    (s.stop d1 e1).stop d2 e2 = s.stop d1 e1 ∧
    (s.stop d1 e1).exists_ = false ∧
    ((s.stop d1 e1).stop d2 e2).exists_ = false ∧
    ((s.stop d1 e1).stop d2 e2).songs = [] ∧
    ((s.stop d1 e1).stop d2 e2).voice = none := by
  simp [VoiceState.stop_spec]

/-- C9: a single `stop` call always completes the teardown: existence
flag false, sink handle nil, queue empty, and the result does not
depend on whether the sink disconnect or the final queue-message edit
raised — those exceptions are swallowed, never propagated (the
function is total in the failure flags). -/
theorem stop_teardown_despite_failures (s : VoiceState) (d e : Bool) :
    (s.stop d e).exists_ = false ∧
    (s.stop d e).voice = none ∧
    (s.stop d e).songs = [] ∧
    s.stop d e = s.stop false false := by
  simp [VoiceState.stop_spec]

/-- C6: when nothing is actively playing — no sink, or no current
track, or the sink reports not playing — `skip` only clears the
skip-vote set: no sink stop call is made (the returned flag is
`false`) and every other field of the session is unchanged. -/
theorem skip_noop_when_not_playing (s : VoiceState)
    (h : s.voice = none ∨ s.current = none ∨
      ∃ v, s.voice = some v ∧ v.playing = false) :
    s.skip = ({ s with skip_votes := [] }, false) := by
  have hp : VoiceState.is_playing { s with skip_votes := [] } = false := by
    unfold VoiceState.is_playing
    rcases h with h | h | ⟨v, hv, hpv⟩
    · cases hc : s.current <;> simp [h, hc]
    · cases hv' : s.voice <;> simp [h, hv']
    · cases hc : s.current <;> simp [hv, hpv, hc]
  unfold VoiceState.skip
  simp [hp]

/-- Witness for C6: a fresh session has no sink, and `skip` on it only
clears the (already empty) vote set and makes no sink call. -/
theorem skip_noop_witness :
    VoiceState.init.voice = none ∧
    VoiceState.init.skip = ({ VoiceState.init with skip_votes := [] }, false) :=
  ⟨rfl, skip_noop_when_not_playing VoiceState.init (Or.inl rfl)⟩

/-- C4: when the loop is in the waiting branch (not looping, or no
current track), the queue is empty and no track arrives within the
1800-second bound, the `TimeoutError` is caught — never surfaced, the
iteration returns normally — `stop()` runs (queue cleared, sink
disconnected and nulled, existence flag false) and the loop exits. -/
theorem idle_timeout_terminates (s : VoiceState)
    (refresh : YTDLSource → Option YTDLSource)
    (hwait : s.loop_flag = false ∨ s.current = none)
    (hempty : s.songs = []) :
    s.audio_player_iter none refresh = (s.stop false false, .terminated) ∧
    (s.stop false false).exists_ = false ∧
    (s.stop false false).songs = [] ∧
    (s.stop false false).voice = none := by
  refine ⟨?_, by rw [VoiceState.stop_spec], by rw [VoiceState.stop_spec],
    by rw [VoiceState.stop_spec]⟩
  unfold VoiceState.audio_player_iter
  rcases hwait with h | h <;> simp [h, hempty]

/-- Witness for C4: a fresh session (not looping, empty queue) whose
wait times out tears itself down and exits the loop. -/
theorem idle_timeout_terminates_witness :
    VoiceState.init.loop_flag = false ∧
    VoiceState.init.songs = [] ∧
    VoiceState.init.audio_player_iter none (fun _ => none) =
      (VoiceState.init.stop false false, .terminated) ∧
    (VoiceState.init.stop false false).exists_ = false := by
  have h := idle_timeout_terminates VoiceState.init (fun _ => none) (Or.inl rfl) rfl
  exact ⟨rfl, rfl, h.1, h.2.1⟩

/-- C3: when the stream-URL refresh performed immediately before
handing a track to the sink raises, the exception is caught and
playback proceeds: the playback loop neither aborts nor skips the
track — it hands the sink the previously stored (stale) source, with
only the session volume applied, and the iteration ends in the
`played` outcome, continuing to the next loop pass. -/
theorem refresh_failure_plays_stale (s : VoiceState) (v : Sink) (song : Song)
    (rest : List Song) (arrival : Option Song)
    (refresh : YTDLSource → Option YTDLSource)
    (hv : s.voice = some v) (hc : v.connected = true)
    (hloop : s.loop_flag = false) (hq : s.songs = song :: rest)
    (hfail : refresh song.source = none) :
    s.audio_player_iter arrival refresh =
      ({ s with songs := rest, current := none, first_song_played := true },
        .played { song with source := { song.source with volume := s.volume } }) := by
  unfold VoiceState.audio_player_iter VoiceState.play_phase
  simp [hloop, hq, hv, hc, hfail]

/-- Witness for C3: a concrete one-track session whose refresh always
fails still plays the stale track and the loop goes on. -/
theorem refresh_failure_plays_stale_witness :
    ({ VoiceState.init with
        voice := some { connected := true, playing := false },
        songs := [{ source := { requester := 0, title := none, uploader := none,
                                url := none, stream_url := none, http_headers := [],
                                volume := 1/2 }, requester := 0 }] } :
      VoiceState).audio_player_iter none (fun _ => none) =
      ({ VoiceState.init with
          voice := some { connected := true, playing := false },
          songs := [], current := none, first_song_played := true },
        .played { source := { requester := 0, title := none, uploader := none,
                              url := none, stream_url := none, http_headers := [],
                              volume := VoiceState.init.volume }, requester := 0 }) :=
  refresh_failure_plays_stale _ _ _ _ _ _ rfl rfl rfl rfl rfl

/-- Helper: the rational ceiling `math.ceil(n / 10)` agrees with the
integer computation `(n + 9) / 10`. -/
theorem ceil_div_ten (n : Nat) : ⌈(n : ℚ) / 10⌉₊ = (n + 9) / 10 := by
  rcases Nat.eq_zero_or_pos ((n + 9) / 10) with h | h
  · have hn : n = 0 := by omega
    subst hn; simp
  · rw [Nat.ceil_eq_iff (by omega)]
    constructor
    · rw [lt_div_iff₀ (by norm_num : (0:ℚ) < 10)]
      exact_mod_cast (by omega : ((n + 9) / 10 - 1) * 10 < n)
    · rw [div_le_iff₀ (by norm_num : (0:ℚ) < 10)]
      exact_mod_cast (by omega : n ≤ ((n + 9) / 10) * 10)

/-- Helper: the page count as the source computes it,
`max(1, math.ceil(n / 10))`, in integer form. -/
theorem numPages_eq (n : Nat) : numPages n = max 1 ((n + 9) / 10) := by
  unfold numPages items_per_page
  norm_num [ceil_div_ten]

/-- C7: the queue view of an `n`-track queue has `max(1, ceil(n/10))`
pages — computed here as `max 1 ((n + 9) / 10)` — and 0-based page `p`
(so 1-based page `p + 1`) holds exactly the tracks at 0-based
positions `10*p` through `min(10*(p+1), n) - 1`, that is 1-based
positions `10*p + 1` through `min(10*(p+1), n)`. -/
theorem queue_pagination {α : Type} (songs : List α) (p : Nat)
    (hp : p + 1 ≤ numPages songs.length) :
    numPages songs.length = max 1 ((songs.length + 9) / 10) ∧
    (pageItems songs p).length = min (10 * (p + 1)) songs.length - 10 * p ∧
    ∀ j, j < (pageItems songs p).length →
      (pageItems songs p)[j]? = songs[10 * p + j]? := by
  refine ⟨?_, ?_, ?_⟩
  · exact numPages_eq _
  · simp only [pageItems, SongQueue.slice, items_per_page, List.length_take,
      List.length_drop]
    omega
  · intro j hj
    simp only [pageItems, SongQueue.slice, items_per_page, List.length_take,
      List.length_drop] at hj
    have hmul : (10 : Nat) * p = p * 10 := Nat.mul_comm _ _
    simp only [pageItems, SongQueue.slice, items_per_page, List.getElem?_take,
      List.getElem?_drop, hmul]
    rw [if_pos (by omega)]

/-- Witness for C7: 25 tracks make 3 pages; page 3 (0-based page 2)
has 5 tracks and its fifth entry is the track at 0-based position 24. -/
theorem queue_pagination_witness :
    2 + 1 ≤ numPages (List.range 25).length ∧
    numPages (List.range 25).length = max 1 (((List.range 25).length + 9) / 10) ∧
    (pageItems (List.range 25) 2).length =
      min (10 * (2 + 1)) (List.range 25).length - 10 * 2 ∧
    (pageItems (List.range 25) 2)[4]? = (List.range 25)[10 * 2 + 4]? := by
  have hp : 2 + 1 ≤ numPages (List.range 25).length := by
    rw [numPages_eq]
    decide
  have h := queue_pagination (List.range 25) 2 hp
  exact ⟨hp, h.1, h.2.1, h.2.2 4 (by decide)⟩

/-- C8: `regather_stream` on a source with a known stable page URL
carries the prior volume forward: whatever refreshed source it
returns has the input's volume; and on a successful single-video
extraction the result is exactly the source rebuilt from the freshly
extracted data — stream URL, headers and metadata re-derived — with
the old volume as the one retained field. -/
theorem regather_stream_keeps_volume (extract : String → Option ExtractInfo)
    (requester : Nat) (source : YTDLSource) (u : String)
    (hu : source.url = some u) :
    (∀ t, YTDLSource.regather_stream extract requester source = .ok t →
      t.volume = source.volume) ∧
    (∀ info, extract u = some info → info.entries = [] →
      YTDLSource.regather_stream extract requester source =
        .ok (YTDLSource.ofData requester info.toExtractData source.volume)) := by
  constructor
  · intro t ht
    unfold YTDLSource.regather_stream at ht
    rw [hu] at ht
    dsimp only at ht
    cases hx : extract u with
    | none => rw [hx] at ht; exact absurd ht (by simp)
    | some info =>
      rw [hx] at ht
      dsimp only at ht
      simp only [Except.ok.injEq] at ht
      rw [← ht]
      rfl
  · intro info hx hent
    unfold YTDLSource.regather_stream
    rw [hu]
    dsimp only
    rw [hx]
    simp [hent]

/-- Witness for C8: refreshing a concrete source with volume `7/10`
through a concrete extractor yields the rebuilt source, whose volume
is still `7/10`. -/
theorem regather_stream_keeps_volume_witness :
    YTDLSource.regather_stream
        (fun _ => some
          { url := "fresh", webpage_url := some "page", title := some "t",
            uploader := none, http_headers := [("k", "v")], entries := [] })
        2
        { requester := 1, title := none, uploader := none, url := some "page",
          stream_url := some "old", http_headers := [], volume := 7/10 } =
      .ok (YTDLSource.ofData 2
        ({ url := "fresh", webpage_url := some "page", title := some "t",
           uploader := none, http_headers := [("k", "v")], entries := [] } :
          ExtractInfo).toExtractData (7/10)) ∧
    (YTDLSource.ofData 2
      ({ url := "fresh", webpage_url := some "page", title := some "t",
         uploader := none, http_headers := [("k", "v")], entries := [] } :
        ExtractInfo).toExtractData (7/10)).volume = 7/10 := by
  have h := regather_stream_keeps_volume
    (fun _ => some
      { url := "fresh", webpage_url := some "page", title := some "t",
        uploader := none, http_headers := [("k", "v")], entries := [] })
    2
    { requester := 1, title := none, uploader := none, url := some "page",
      stream_url := some "old", http_headers := [], volume := 7/10 }
    "page" rfl
  have h2 := h.2 _ rfl rfl
  exact ⟨h2, h.1 _ h2⟩

/-- Helper: `remove` at a negative in-range index deletes the element
at position `length + index`. -/
theorem SongQueue.remove_neg {α : Type} (q : List α) (index : Int)
    (hlo : -(q.length : Int) ≤ index) (hhi : index ≤ -1) :
    SongQueue.remove q index =
      some (q.eraseIdx (((q.length : Int) + index).toNat)) := by
  unfold SongQueue.remove
  dsimp only
  rw [if_pos (by omega : index < 0)]
  rw [if_pos (⟨by omega, by omega⟩ : 0 ≤ index + (q.length : Int) ∧
    index + (q.length : Int) < (q.length : Int))]
  rw [List.eraseIdx_eq_take_drop_succ]
  have he : (index + (q.length : Int)).toNat = ((q.length : Int) + index).toNat := by
    omega
  rw [he]

/-- Helper: `remove` raises `IndexError` exactly when the index falls
outside `[-n, n-1]`. -/
theorem SongQueue.remove_eq_none_iff {α : Type} (q : List α) (index : Int) :
    SongQueue.remove q index = none ↔
      ((q.length : Int) ≤ index ∨ index < -(q.length : Int)) := by
  unfold SongQueue.remove
  dsimp only
  by_cases hneg : index < 0
  · rw [if_pos hneg]
    by_cases hin : 0 ≤ index + (q.length : Int) ∧
        index + (q.length : Int) < (q.length : Int)
    · rw [if_pos hin]
      simp only [reduceCtorEq, false_iff]
      omega
    · rw [if_neg hin]
      simp only [true_iff]
      omega
  · rw [if_neg hneg]
    by_cases hin : 0 ≤ index ∧ index < (q.length : Int)
    · rw [if_pos hin]
      simp only [reduceCtorEq, false_iff]
      omega
    · rw [if_neg hin]
      simp only [true_iff]
      omega

/-- C10: queue deletion follows Python negative-index semantics rather
than rejecting all non-positions: on a queue of length `n ≥ 1`,
`remove(index)` with `-n ≤ index ≤ -1` succeeds and deletes the
element at 0-based position `n + index`; it raises an
`IndexError`-kind failure (`none`) exactly when `index ≥ n` or
`index < -n`; and the user-facing remove command invoked with
argument `0` — which forwards `0 - 1 = -1` — deletes the last track. -/
theorem remove_negative_index {α : Type} (q : List α) (index : Int)
    (hq : 1 ≤ q.length) :
    ((-(q.length : Int) ≤ index ∧ index ≤ -1) →
      SongQueue.remove q index =
        some (q.eraseIdx (((q.length : Int) + index).toNat))) ∧
    (SongQueue.remove q index = none ↔
      ((q.length : Int) ≤ index ∨ index < -(q.length : Int))) ∧
    Music.removeCommand q 0 = some (q.eraseIdx (q.length - 1)) := by
  refine ⟨fun h => SongQueue.remove_neg q index h.1 h.2,
    SongQueue.remove_eq_none_iff q index, ?_⟩
  unfold Music.removeCommand
  rw [if_neg (by omega : ¬q.length = 0)]
  have h := SongQueue.remove_neg q (0 - 1) (by omega) (by omega)
  rw [h]
  have he : (((q.length : Int)) + (0 - 1)).toNat = q.length - 1 := by omega
  rw [he]

/-- Witness for C10 on the three-track queue `[10, 20, 30]`: index `-1`
deletes the last element, and the remove command called with `0` does
the same. -/
theorem remove_negative_index_witness :
    1 ≤ ([10, 20, 30] : List Nat).length ∧
    SongQueue.remove ([10, 20, 30] : List Nat) (-1) =
      some (([10, 20, 30] : List Nat).eraseIdx
        (((([10, 20, 30] : List Nat).length : Int) + -1).toNat)) ∧
    Music.removeCommand ([10, 20, 30] : List Nat) 0 =
      some (([10, 20, 30] : List Nat).eraseIdx
        (([10, 20, 30] : List Nat).length - 1)) := by
  have h := remove_negative_index ([10, 20, 30] : List Nat) (-1) (by decide)
  exact ⟨by decide, h.1 (by constructor <;> decide), h.2.2⟩

/-- Helper: the enqueue phase appends, in list order, the sources of
every successful resolution. -/
theorem enqueueResults_eq {σ : Type} (results : List (Nat × Option (List σ))) :
    ∀ q : List σ,
      enqueueResults q results = q ++ results.flatMap (fun r => r.2.getD []) := by
  induction results with
  | nil => intro q; simp [enqueueResults]
  | cons r rest ih =>
    intro q
    have hstep : enqueueResults q (r :: rest) =
        enqueueResults
          (match r.2 with
            | none => q
            | some srcs => q ++ srcs) rest := rfl
    rw [hstep]
    cases hr : r.2 with
    | none => simp [hr, ih, List.flatMap_cons]
    | some srcs => simp [hr, ih, List.flatMap_cons]

/-- Helper: an index-tagged map of a run of consecutive indices has
strictly increasing keys. -/
theorem indexed_map_pairwise {σ : Type} (res : Nat → Option (List σ)) (s len : Nat) :
    List.Pairwise (fun a b => a.1 < b.1)
      ((List.range' s len).map (fun i => (i, res i))) := by
  rw [List.pairwise_map]
  simpa using List.pairwise_lt_range' s len

/-- Helper: sorting by original index recovers the canonical list from
any permutation of it — the keys are pairwise distinct, so the sorted
order is unique.  This is what makes the enqueue order independent of
the completion order of the concurrent resolutions. -/
theorem sortResults_eq_of_perm {σ : Type} {l c : List (Nat × Option (List σ))}
    (hperm : l.Perm c)
    (hsorted : List.Pairwise (fun a b => a.1 < b.1) c) :
    sortResults l = c := by
  unfold sortResults
  have hperm1 : (l.mergeSort (fun a b => decide (a.1 ≤ b.1))).Perm c :=
    (List.mergeSort_perm l _).trans hperm
  have ht : ∀ a b c : Nat × Option (List σ),
      decide (a.1 ≤ b.1) = true → decide (b.1 ≤ c.1) = true →
      decide (a.1 ≤ c.1) = true := by
    intro a b c hab hbc
    simp only [decide_eq_true_eq] at hab hbc ⊢
    omega
  have htot : ∀ a b : Nat × Option (List σ),
      (decide (a.1 ≤ b.1) || decide (b.1 ≤ a.1)) = true := by
    intro a b
    simp only [Bool.or_eq_true, decide_eq_true_eq]
    omega
  have hs : List.Pairwise (fun a b : Nat × Option (List σ) => a.1 ≤ b.1)
      (l.mergeSort (fun a b => decide (a.1 ≤ b.1))) :=
    List.Pairwise.imp (fun h => of_decide_eq_true h)
      (@List.sorted_mergeSort _ (fun a b => decide (a.1 ≤ b.1)) ht htot l)
  have hnodup : List.Pairwise (fun a b : Nat × Option (List σ) => a.1 ≠ b.1)
      (l.mergeSort (fun a b => decide (a.1 ≤ b.1))) := by
    have hc : List.Pairwise (fun a b : Nat × Option (List σ) => a.1 ≠ b.1) c :=
      hsorted.imp (fun h => Nat.ne_of_lt h)
    exact hc.perm hperm1.symm (fun h => Ne.symm h)
  have hlt : List.Pairwise (fun a b : Nat × Option (List σ) => a.1 < b.1)
      (l.mergeSort (fun a b => decide (a.1 ≤ b.1))) :=
    (hs.and hnodup).imp (fun h => lt_of_le_of_ne h.1 h.2)
  exact @List.eq_of_perm_of_sorted _
    (fun a b : Nat × Option (List σ) => a.1 < b.1)
    ⟨fun a b h1 h2 => (Nat.lt_asymm h1 h2).elim⟩ _ _ hperm1 hlt hsorted

/-- Helper: when every index of a run resolves to a single source, the
flattening of the outcomes is the map of those sources. -/
theorem flatMap_getD_eq_map {σ : Type} (res : Nat → Option (List σ)) (f : Nat → σ)
    (l : List Nat) (h : ∀ i ∈ l, res i = some [f i]) :
    l.flatMap (fun i => (res i).getD []) = l.map f := by
  induction l with
  | nil => rfl
  | cons a l ih =>
    rw [List.flatMap_cons, List.map_cons, h a (List.mem_cons_self a l),
      ih (fun i hi => h i (List.mem_cons_of_mem a hi))]
    rfl

/-- Helper: the batch loop, run over the chunk starts
`s, s+10, …` covering `n` track indices, appends the resolved sources
of indices `s, s+1, …, s+n-1` in index order, whatever completion
order each batch's results arrived in. -/
theorem runImport_spec {σ : Type} (connected : Nat → Bool)
    (batchResults : Nat → List (Nat × Option (List σ)))
    (res : Nat → Option (List σ)) :
    ∀ (k s n : Nat) (q : List σ),
      k = (n + 9) / 10 →
      (∀ st ∈ List.range' s k 10, connected st = true) →
      (∀ st ∈ List.range' s k 10,
        (batchResults st).Perm
          ((List.range' st (min 10 (s + n - st))).map (fun i => (i, res i)))) →
      runImport connected batchResults q (List.range' s k 10) =
        q ++ (List.range' s n).flatMap (fun i => (res i).getD []) := by
  intro k
  induction k with
  | zero =>
    intro s n q hk _ _
    have hn : n = 0 := by omega
    subst hn
    simp [runImport]
  | succ k ih =>
    intro s n q hk hconn hbatch
    rw [List.range'_succ]
    have hconn0 : connected s = true :=
      hconn s (by rw [List.range'_succ]; exact List.mem_cons_self _ _)
    simp only [runImport, hconn0, if_true]
    have hmin : s + n - s = n := by omega
    have hsort : sortResults (batchResults s) =
        (List.range' s (min 10 n)).map (fun i => (i, res i)) := by
      apply sortResults_eq_of_perm
      · have hb := hbatch s (by rw [List.range'_succ]; exact List.mem_cons_self _ _)
        rwa [hmin] at hb
      · exact indexed_map_pairwise res s (min 10 n)
    rw [hsort, enqueueResults_eq]
    simp only [List.flatMap_map]
    by_cases hn : n ≤ 10
    · have hk0 : k = 0 := by omega
      have hn1 : 1 ≤ n := by omega
      have hminn : min 10 n = n := by omega
      subst hk0
      rw [hminn]
      simp [runImport]
    · have h10 : min 10 n = 10 := by omega
      rw [h10]
      have hk' : k = (n - 10 + 9) / 10 := by omega
      have hconn' : ∀ st ∈ List.range' (s + 10) k 10, connected st = true := by
        intro st hst
        exact hconn st (by rw [List.range'_succ]; exact List.mem_cons_of_mem _ hst)
      have hbatch' : ∀ st ∈ List.range' (s + 10) k 10,
          (batchResults st).Perm
            ((List.range' st (min 10 (s + 10 + (n - 10) - st))).map
              (fun i => (i, res i))) := by
        intro st hst
        have heq : s + 10 + (n - 10) - st = s + n - st := by omega
        rw [heq]
        exact hbatch st (by rw [List.range'_succ]; exact List.mem_cons_of_mem _ hst)
      rw [ih (s + 10) (n - 10) _ hk' hconn' hbatch']
      rw [List.append_assoc]
      congr 1
      rw [← List.flatMap_append]
      congr 1
      have happ := List.range'_append s 10 (n - 10) 1
      simp only [one_mul] at happ
      rw [happ]
      congr 1
      omega

/-- C1: the playlist importer preserves playlist order.  For a playlist
of `total` tracks each of which resolves to a single song (`res i =
some [f i]`), with the sink connected throughout, and each batch's
gathered results being an arbitrary permutation — any completion
order — of that batch's `(index, outcome)` pairs, the songs appended
to the queue are exactly `f 0, f 1, …` in original playlist index
order: within each fixed-size batch the results are re-sorted by
original index before being enqueued, and batches are processed in
index order. -/
theorem spotify_playlist_preserves_order {σ : Type} (q : List σ) (total : Nat)
    (connected : Nat → Bool) (res : Nat → Option (List σ))
    (batchResults : Nat → List (Nat × Option (List σ))) (f : Nat → σ)
    (hconn : ∀ start, connected start = true)
    (hbatch : ∀ start, start < total →
      (batchResults start).Perm (canonicalBatch res total start))
    (hres : ∀ i, i < total → res i = some [f i]) :
    play_spotify_playlist q total connected batchResults =
      q ++ (List.range total).map f := by
  unfold play_spotify_playlist batch_size
  have hk : (total + 10 - 1) / 10 = (total + 9) / 10 := by omega
  have hc : ∀ st ∈ List.range' 0 ((total + 10 - 1) / 10) 10,
      connected st = true := fun st _ => hconn st
  have hb : ∀ st ∈ List.range' 0 ((total + 10 - 1) / 10) 10,
      (batchResults st).Perm
        ((List.range' st (min 10 (0 + total - st))).map (fun i => (i, res i))) := by
    intro st hst
    rw [List.mem_range'] at hst
    obtain ⟨i, hi, rfl⟩ := hst
    have hlt : 0 + 10 * i < total := by omega
    have hbp := hbatch _ hlt
    unfold canonicalBatch batch_size at hbp
    have heq : min 10 (total - (0 + 10 * i)) = min 10 (0 + total - (0 + 10 * i)) := by
      omega
    rwa [heq] at hbp
  have hspec := runImport_spec connected batchResults res
    ((total + 10 - 1) / 10) 0 total q hk hc hb
  rw [hspec]
  congr 1
  rw [List.range_eq_range']
  refine flatMap_getD_eq_map res f _ (fun i hi => hres i ?_)
  rw [List.mem_range'] at hi
  obtain ⟨j, hj, rfl⟩ := hi
  omega

/-- Witness for C1: a 12-track playlist (two batches) whose per-batch
results arrive in exactly reversed completion order is still enqueued
in playlist order. -/
theorem spotify_playlist_preserves_order_witness :
    play_spotify_playlist ([] : List Nat) 12 (fun _ => true)
        (fun st => (canonicalBatch (fun i => some [100 + i]) 12 st).reverse) =
      [] ++ (List.range 12).map (fun i => 100 + i) :=
  spotify_playlist_preserves_order [] 12 (fun _ => true)
    (fun i => some [100 + i])
    (fun st => (canonicalBatch (fun i => some [100 + i]) 12 st).reverse)
    (fun i => 100 + i)
    (fun _ => rfl)
    (fun _ _ => List.reverse_perm _)
    (fun _ _ => rfl)

end Orca
